import Mathlib

/-!
Verification of the selector-fallback scraping pipeline in `src/main.py`
(class `QudobeautyScraper`).

The program drives a browser through an opaque page driver. We embed the
pure decision logic of each component as executable Lean functions over
explicit inputs that stand for what the driver reports:

* an element lookup that may fail (`NoSuchElementException`) is an
  `Option` input: `none` for "not found", `some v` for "found, with this
  text / attribute value";
* the Python `set` used by the Link Collector is modelled as an
  insertion-ordered duplicate-free list (`insertUnique`).  Python's set
  iteration order is unspecified; the claims we settle here (membership,
  duplicate-freedom, cardinality caps) are independent of iteration
  order, so this abstraction is sound for them;
* Python's string primitives `in`, `.lower()`, `.strip()` and
  `.startswith()` are spelled out over the character list of the string
  (`pyContains`, `pyLower`, `pyStrip`, `pyStartsWith`); `.lower()` is the
  ASCII case map, which agrees with Python on the URLs and selector
  strings this program handles;
* machine timing (sleeps, bounded waits) is abstracted away: a wait that
  can time out is modelled by the boolean outcome it produces.
-/

/-- `self.base_url` set in `QudobeautyScraper.__init__`. -/
def base_url : String := "https://qudobeauty.com"

/-- Python truthiness of an optional string: `None` and `""` are falsy,
every other string is truthy. -/
def truthy : Option String → Bool
  | none => false
  | some s => !(s == "")

/-- Occurrence of `sub` as a contiguous run inside `s`, over character
lists: Python's `sub in s`. -/
def charsContain : List Char → List Char → Bool
  | [], sub => sub.isEmpty
  | c :: rest, sub => sub.isPrefixOf (c :: rest) || charsContain rest sub

/-- Python's substring test `sub in s`. -/
def pyContains (s sub : String) : Bool :=
  charsContain s.data sub.data

/-- Python's `s.startswith(p)`. -/
def pyStartsWith (s p : String) : Bool :=
  p.data.isPrefixOf s.data

/-- ASCII lower-casing of one character (Python `str.lower` restricted to
ASCII, which covers every string this program compares). -/
def lowerChar (c : Char) : Char :=
  if 65 ≤ c.toNat ∧ c.toNat ≤ 90 then Char.ofNat (c.toNat + 32) else c

/-- Python's `s.lower()` (ASCII). -/
def pyLower (s : String) : String :=
  ⟨s.data.map lowerChar⟩

/-- A whitespace character as Python's `str.strip` sees it. -/
def isSpaceChar (c : Char) : Bool :=
  c = ' ' || c = '\t' || c = '\n' || c = '\r' || c = '\x0b' || c = '\x0c'

/-- Python's `s.strip()`: drop whitespace from both ends. -/
def pyStrip (s : String) : String :=
  ⟨((s.data.dropWhile isSpaceChar).reverse.dropWhile isSpaceChar).reverse⟩

/-- The first disjunct of the inclusion test on line 153 of
`extract_product_links`: `href and '/products/' in href and 'skincare' in
href.lower()`.  A `None` href is falsy, so the whole conjunction is false. -/
def linkKeep : Option String → Bool
  | none => false
  | some h => pyContains h "/products/" && pyContains (pyLower h) "skincare"

/-- `product_links.add(href)` on the insertion-ordered model of the set. -/
def insertUnique (acc : List (Option String)) (href : Option String) :
    List (Option String) :=
  if href ∈ acc then acc else acc ++ [href]

/-- The body of the inner loop of `extract_product_links` (lines 152-154),
without the early break: add `href` to the set exactly when
`(href and '/products/' in href and 'skincare' in href.lower())
 or len(product_links) < max_products`.
Python's `and` binds tighter than `or`, so the cap test is a bare second
disjunct. -/
def collectStep (maxP : Nat) (acc : List (Option String))
    (href : Option String) : List (Option String) :=
  if linkKeep href || decide (acc.length < maxP) then insertUnique acc href
  else acc

/-- The inner loop of `extract_product_links` (lines 151-156) over the
hrefs one selector produced.  After an actual add that reaches the cap the
loop breaks; when the inclusion test fails the break test is not reached
(it sits inside the `if` body). -/
def collectLinks (maxP : Nat) (acc : List (Option String)) :
    List (Option String) → List (Option String)
  | [] => acc
  | h :: rest =>
    let a2 := collectStep maxP acc h
    if (linkKeep h || decide (acc.length < maxP)) && decide (maxP ≤ a2.length) then
      a2
    else collectLinks maxP a2 rest

/-- The outer loop of `extract_product_links` (lines 148-162): one href
list per locator candidate (a candidate whose DOM query raised contributes
the hrefs scanned before the failure, possibly none), breaking between
candidates once the cap is reached. -/
def collectAllSelectors (maxP : Nat) (acc : List (Option String)) :
    List (List (Option String)) → List (Option String)
  | [] => acc
  | sel :: rest =>
    let a2 := collectLinks maxP acc sel
    if maxP ≤ a2.length then a2 else collectAllSelectors maxP a2 rest

/-- `extract_product_links` (lines 119-165): scan every selector's hrefs,
then `return list(product_links)[:max_products]`. -/
def extract_product_links (maxP : Nat)
    (selectorHrefs : List (List (Option String))) : List (Option String) :=
  (collectAllSelectors maxP [] selectorHrefs).take maxP

/-- The image-URL fixup on lines 249-252 of `scrape_product_page`:
scheme-relative URLs get `https:` prepended, root-relative URLs get the
base URL prepended, anything else is left alone. -/
def normalizeImageUrl (base u : String) : String :=
  if pyStartsWith u "//" then "https:" ++ u
  else if pyStartsWith u "/" then base ++ u
  else u

/-- `_safe_find_element` (lines 68-74): the input is the element lookup's
outcome (`none` for `NoSuchElementException`, `some txt` for an element
with visible text `txt`).  Returns `element.text.strip() if element.text
else None`: `None` on a failed lookup or empty text, otherwise the
stripped text (which can itself be the empty string when the text was
whitespace-only). -/
def safe_find_element : Option String → Option String
  | none => none
  | some txt => if txt == "" then none else some (pyStrip txt)

/-- A locator candidate whose processed text breaks the per-field loop:
the assigned value `_safe_find_element(...)` is truthy. -/
def acceptText (c : Option String) : Bool :=
  truthy (safe_find_element c)

/-- One per-field candidate loop of `scrape_product_page` for the four
text fields (e.g. lines 193-196): assign the candidate's processed text,
break when it is truthy; the final field value is the last assignment
(`cur` carries it). -/
def extractFieldLoop (cur : Option String) : List (Option String) → Option String
  | [] => cur
  | c :: rest =>
    let v := safe_find_element c
    if truthy v then v else extractFieldLoop v rest

/-- The image candidate loop (lines 245-253): each candidate input is the
value `_safe_get_attribute(..., 'src')` returned (`none` for a failed
lookup or an absent attribute — no stripping happens for attributes).  On
a truthy value the loop normalizes it and breaks; otherwise the raw falsy
value stays assigned. -/
def extractImageLoop (base : String) (cur : Option String) :
    List (Option String) → Option String
  | [] => cur
  | c :: rest =>
    if truthy c then some (normalizeImageUrl base (c.getD ""))
    else extractImageLoop base c rest

/-- What one loaded detail page offers to the extractor: the outcome of
each locator candidate lookup for the five fields, in the fixed priority
order of `scrape_product_page`, plus the `og:title` / `og:image` meta-tag
`content` attributes. -/
structure PageData where
  nameCands : List (Option String)
  catCands : List (Option String)
  ingCands : List (Option String)
  sizeCands : List (Option String)
  imgCands : List (Option String)
  ogTitle : Option String
  ogImage : Option String
deriving DecidableEq, Repr

/-- The `product_data` dictionary of `scrape_product_page`
(lines 175-183), in its field order. -/
structure ProductRecord where
  product_name : Option String
  brand : String
  category : Option String
  ingredients : Option String
  size : Option String
  image_url : Option String
  product_url : String
deriving DecidableEq, Repr

/-- The full image pipeline of `scrape_product_page`: the candidate loop
(lines 245-253) followed by the `og:image` fallback (lines 263-268), which
runs when the loop left a falsy value and stores the meta content
verbatim. -/
def extractImage (base : String) (cands : List (Option String))
    (og : Option String) : Option String :=
  let v := extractImageLoop base none cands
  if truthy v then v else og

/-- `scrape_product_page` (lines 167-274): `none` input stands for any
exception raised while loading or extracting the page, caught by the
`except` on line 272 — the function then returns `None`.  Otherwise the
record is built field-by-field from the candidate loops, with the
`og:title` fallback for a falsy name (lines 256-261). -/
def scrape_product_page (base url : String) :
    Option PageData → Option ProductRecord
  | none => none
  | some p =>
    let name0 := extractFieldLoop none p.nameCands
    some ⟨if truthy name0 then name0 else p.ogTitle,
          "Qudo Beauty",
          extractFieldLoop none p.catCands,
          extractFieldLoop none p.ingCands,
          extractFieldLoop none p.sizeCands,
          extractImage base p.imgCands p.ogImage,
          url⟩

/-- One iteration of the main loop of `scrape_products` (lines 291-300):
append the scraped record only when it exists and its `product_name` is
truthy. -/
def runStep (base : String) (acc : List ProductRecord)
    (pg : String × Option PageData) : List ProductRecord :=
  match scrape_product_page base pg.1 pg.2 with
  | some r => if truthy r.product_name then acc ++ [r] else acc
  | none => acc

/-- The record accumulation of `scrape_products`: fold the per-page step
over the collected links (paired with each page's outcome), starting from
the empty `self.products`. -/
def scrape_products_run (base : String)
    (pages : List (String × Option PageData)) : List ProductRecord :=
  pages.foldl (runStep base) []

/-- The spec's wording of the candidate-acceptance test in C3: the
resulting text or attribute is non-empty after trimming whitespace.
Declared only to compare with the code's actual test (`acceptText` /
`truthy`), which does not trim attribute values. -/
def specAcceptTrimmed (c : Option String) : Bool :=
  match c with
  | none => false
  | some s => !(pyStrip s == "")

/-- `navigate_to_skincare` (lines 84-117), timing abstracted: the input
lists, per selector in the fixed order, whether that selector became
clickable within its 5-unit wait; the output is the returned boolean
paired with how many selectors were attempted.  A `True` selector is
clicked and the function returns at once; if all time out every selector
was attempted and the function returns `False` (no exception escapes: the
`TimeoutException` of each attempt is swallowed by `continue`, anything
else by the outer `except`). -/
def navigate_to_skincare : List Bool → Bool × Nat
  | [] => (false, 0)
  | c :: rest =>
    if c then (true, 1)
    else ((navigate_to_skincare rest).1, (navigate_to_skincare rest).2 + 1)

/-- Observable events of one `scrape_products` run, for the resource
claim: the page driver is released by `self.driver.quit()` only through
the `finally` block (line 307-308). -/
inductive ScrapeEv where
  | navigate : ScrapeEv
  | extractLinks : ScrapeEv
  | visit : String → ScrapeEv
  | append : ScrapeEv
  | sleep : ScrapeEv
  | logError : ScrapeEv
  | driverQuit : ScrapeEv
deriving DecidableEq, Repr

/-- The events the main loop of `scrape_products` (lines 291-300) emits:
visit each link, append the record when kept, sleep between requests. -/
def scrapeLoopEvents (base : String) :
    List (String × Option PageData) → List ScrapeEv
  | [] => []
  | (url, pg) :: rest =>
    ScrapeEv.visit url ::
      ((match scrape_product_page base url pg with
        | some r => if truthy r.product_name then [ScrapeEv.append] else []
        | none => []) ++ ScrapeEv.sleep :: scrapeLoopEvents base rest)

/-- The whole `try` body of `scrape_products` (lines 278-302). -/
def scrapeBodyEvents (base : String)
    (pages : List (String × Option PageData)) : List ScrapeEv :=
  ScrapeEv.navigate :: ScrapeEv.extractLinks :: scrapeLoopEvents base pages

/-- The `try`/`except`/`finally` of `scrape_products` (lines 276-308):
`body` is the trace the `try` block produced before finishing or raising
(a prefix of the full body trace when an exception cut it short); on the
raising path the `except` logs the error; in both cases the `finally`
releases the driver afterwards. -/
def scrape_products_trace (body : List ScrapeEv) (raised : Bool) :
    List ScrapeEv :=
  (if raised then body ++ [ScrapeEv.logError] else body) ++ [ScrapeEv.driverQuit]

lemma mem_insertUnique (acc : List (Option String)) (h : Option String) :
    h ∈ insertUnique acc h := by
  unfold insertUnique
  by_cases hm : h ∈ acc
  · simp [hm]
  · simp [hm]

lemma insertUnique_nodup (acc : List (Option String)) (h : Option String)
    (hn : acc.Nodup) : (insertUnique acc h).Nodup := by
  unfold insertUnique
  by_cases hm : h ∈ acc
  · simpa [hm]
  · rw [if_neg hm, List.nodup_append]
    refine ⟨hn, by simp, ?_⟩
    intro x hx hx2
    rw [List.mem_singleton] at hx2
    subst hx2
    exact hm hx

lemma collectLinks_nodup (maxP : Nat) (hrefs : List (Option String)) :
    ∀ acc : List (Option String), acc.Nodup → (collectLinks maxP acc hrefs).Nodup := by
  induction hrefs with
  | nil => intro acc hn; simpa [collectLinks] using hn
  | cons h rest ih =>
    intro acc hn
    have hstep : (collectStep maxP acc h).Nodup := by
      unfold collectStep
      by_cases hc : (linkKeep h || decide (acc.length < maxP)) = true
      · simpa [hc] using insertUnique_nodup acc h hn
      · simpa [hc] using hn
    unfold collectLinks
    by_cases hb : ((linkKeep h || decide (acc.length < maxP)) &&
        decide (maxP ≤ (collectStep maxP acc h).length)) = true
    · simpa [hb] using hstep
    · simpa [hb] using ih (collectStep maxP acc h) hstep

lemma collectAllSelectors_nodup (maxP : Nat) (sels : List (List (Option String))) :
    ∀ acc : List (Option String), acc.Nodup →
      (collectAllSelectors maxP acc sels).Nodup := by
  induction sels with
  | nil => intro acc hn; simpa [collectAllSelectors] using hn
  | cons sel rest ih =>
    intro acc hn
    have h2 : (collectLinks maxP acc sel).Nodup := collectLinks_nodup maxP sel acc hn
    unfold collectAllSelectors
    by_cases hb : maxP ≤ (collectLinks maxP acc sel).length
    · simpa [hb] using h2
    · simpa [hb] using ih (collectLinks maxP acc sel) h2

/-- C1: in `extract_product_links`, an href read from a matched element is
added to the result set if and only if it passes the category test
(`'/products/' in href` and `'skincare' in href.lower()`) or the set is
still below the cap — and when it satisfies neither disjunct the set is
left unchanged.  (An href already present stays present; the set add is
then a no-op.) -/
theorem link_inclusion_rule (maxP : Nat) (acc : List (Option String))
    (href : Option String) :
    (href ∈ collectStep maxP acc href ↔
      (linkKeep href = true ∨ acc.length < maxP) ∨ href ∈ acc)
    ∧ (linkKeep href = false → ¬ acc.length < maxP →
        collectStep maxP acc href = acc) := by
  constructor
  · unfold collectStep
    by_cases hc : (linkKeep href || decide (acc.length < maxP)) = true
    · rcases Bool.or_eq_true_iff.mp hc with hk | hlt
      · simp [hc, mem_insertUnique, hk]
      · simp [hc, mem_insertUnique, of_decide_eq_true hlt]
    · rw [Bool.or_eq_true_iff] at hc
      push_neg at hc
      simp only [Bool.not_eq_true] at hc
      constructor
      · intro hm
        rw [if_neg (by simp [hc.1, hc.2])] at hm
        exact Or.inr hm
      · intro hd
        rcases hd with (hk | hlt) | hm
        · exact absurd hk (by simp [hc.1])
        · exact absurd (decide_eq_true hlt) (by simp [hc.2])
        · rw [if_neg (by simp [hc.1, hc.2])]
          exact hm
  · intro hk hlt
    unfold collectStep
    rw [if_neg]
    simp [hk, hlt]

theorem link_inclusion_rule_witness :
    (some "https://qudobeauty.com/page-a" ∈
      collectStep 30 [] (some "https://qudobeauty.com/page-a"))
    ∧ collectStep 0 [some "https://qudobeauty.com/page-a"]
        (some "https://qudobeauty.com/page-b") =
        [some "https://qudobeauty.com/page-a"] :=
  ⟨(link_inclusion_rule 30 [] (some "https://qudobeauty.com/page-a")).1.mpr
      (Or.inl (Or.inr (by decide))),
   (link_inclusion_rule 0 [some "https://qudobeauty.com/page-a"]
      (some "https://qudobeauty.com/page-b")).2 (by decide) (by decide)⟩

/-- C4: the image-URL fixup of `scrape_product_page`: a value starting
with `//` is stored with `https:` prepended; otherwise one starting with
`/` is stored with the base URL prepended; any other value is stored
unchanged. -/
theorem image_url_normalization_cases (base u : String) :
    (pyStartsWith u "//" = true → normalizeImageUrl base u = "https:" ++ u)
    ∧ (pyStartsWith u "//" = false → pyStartsWith u "/" = true →
        normalizeImageUrl base u = base ++ u)
    ∧ (pyStartsWith u "//" = false → pyStartsWith u "/" = false →
        normalizeImageUrl base u = u) := by
  refine ⟨fun h1 => ?_, fun h1 h2 => ?_, fun h1 h2 => ?_⟩
  · simp [normalizeImageUrl, h1]
  · simp [normalizeImageUrl, h1, h2]
  · simp [normalizeImageUrl, h1, h2]

theorem image_url_normalization_witness :
    normalizeImageUrl base_url "//example/img.png" = "https://example/img.png"
    ∧ normalizeImageUrl base_url "/img.png" = "https://qudobeauty.com/img.png"
    ∧ normalizeImageUrl base_url "img.png" = "img.png" :=
  ⟨((image_url_normalization_cases base_url "//example/img.png").1
      (by decide)).trans (by decide),
   (((image_url_normalization_cases base_url "/img.png").2.1
      (by decide)) (by decide)).trans (by decide),
   ((image_url_normalization_cases base_url "img.png").2.2
      (by decide)) (by decide)⟩

/-- C10: when a matched element's href attribute is absent (`None`) and
the set is still below the cap, line 153's test is true via its second
disjunct and `None` itself is added, so the returned link list can contain
a non-URL `None` entry.  Concrete run: one selector matching one element
whose href is `None`, cap 30. -/
theorem href_none_collected :
    none ∈ extract_product_links 30 [[none]]
    ∧ extract_product_links 30 [[none]] = [none] := by
  constructor <;> decide

lemma extractFieldLoop_find_some (cands : List (Option String)) :
    ∀ cur c, cands.find? acceptText = some c →
      extractFieldLoop cur cands = safe_find_element c := by
  induction cands with
  | nil => intro cur c h; simp [List.find?] at h
  | cons a rest ih =>
    intro cur c h
    by_cases ha : acceptText a = true
    · simp [List.find?, ha] at h
      subst h
      simp [extractFieldLoop, acceptText] at ha ⊢
      simp [ha]
    · simp [List.find?, Bool.of_not_eq_true ha] at h
      have ha2 : truthy (safe_find_element a) = false := by
        simpa [acceptText] using Bool.of_not_eq_true ha
      simp [extractFieldLoop, ha2]
      exact ih (safe_find_element a) c h

lemma extractFieldLoop_find_none (cands : List (Option String)) :
    ∀ cur, truthy cur = false → cands.find? acceptText = none →
      truthy (extractFieldLoop cur cands) = false := by
  induction cands with
  | nil => intro cur hcur _; simpa [extractFieldLoop] using hcur
  | cons a rest ih =>
    intro cur hcur h
    by_cases ha : acceptText a = true
    · simp [List.find?, ha] at h
    · have ha2 : truthy (safe_find_element a) = false := by
        simpa [acceptText] using Bool.of_not_eq_true ha
      simp [List.find?, Bool.of_not_eq_true ha] at h
      simp [extractFieldLoop, ha2]
      exact ih (safe_find_element a) ha2
        (by rw [List.find?_eq_none]; intro x hx; simp [h x hx])

lemma extractImageLoop_find_some (base : String) (cands : List (Option String)) :
    ∀ cur c, cands.find? truthy = some c →
      extractImageLoop base cur cands = some (normalizeImageUrl base (c.getD "")) := by
  induction cands with
  | nil => intro cur c h; simp [List.find?] at h
  | cons a rest ih =>
    intro cur c h
    by_cases ha : truthy a = true
    · simp [List.find?, ha] at h
      subst h
      simp [extractImageLoop, ha]
    · simp [List.find?, Bool.of_not_eq_true ha] at h
      simp [extractImageLoop, Bool.of_not_eq_true ha]
      exact ih a c h

lemma extractImageLoop_find_none (base : String) (cands : List (Option String)) :
    ∀ cur, truthy cur = false → cands.find? truthy = none →
      truthy (extractImageLoop base cur cands) = false := by
  induction cands with
  | nil => intro cur hcur _; simpa [extractImageLoop] using hcur
  | cons a rest ih =>
    intro cur hcur h
    by_cases ha : truthy a = true
    · simp [List.find?, ha] at h
    · simp [List.find?, Bool.of_not_eq_true ha] at h
      simp [extractImageLoop, Bool.of_not_eq_true ha]
      exact ih a (Bool.of_not_eq_true ha)
        (by rw [List.find?_eq_none]; intro x hx; simp [h x hx])

lemma append_ne_empty_of_right (a s : String) (h : s ≠ "") : a ++ s ≠ "" := by
  intro he
  apply h
  have hl := congrArg String.length he
  rw [String.length_append] at hl
  have h0 : ("" : String).length = 0 := rfl
  rw [h0] at hl
  have hs : s.length = 0 := by omega
  have hdata : s.data = [] := List.length_eq_zero.mp hs
  apply String.ext
  rw [hdata]

lemma normalizeImageUrl_ne_empty (base s : String) (h : s ≠ "") :
    normalizeImageUrl base s ≠ "" := by
  unfold normalizeImageUrl
  by_cases h1 : pyStartsWith s "//" = true
  · rw [if_pos h1]
    exact append_ne_empty_of_right "https:" s h
  · rw [if_neg h1]
    by_cases h2 : pyStartsWith s "/" = true
    · rw [if_pos h2]
      exact append_ne_empty_of_right base s h
    · rw [if_neg h2]
      exact h

lemma truthy_some_iff (s : String) : truthy (some s) = true ↔ s ≠ "" := by
  simp [truthy]

/-- C2 (counterexample): a detail page on which every image locator
candidate fails and the `og:image` meta tag holds the root-relative URL
`/img.png`.  The record appended to the run's output keeps `/img.png`
verbatim: the normalization on lines 249-252 runs only inside the
candidate loop, never on the `og:image` fallback value, so a stored
`image_url` can be non-absolute. -/
def cexOgPage : PageData :=
  ⟨[some "Serum"], [none], [none], [none], [none, none, none, none],
   none, some "/img.png"⟩

theorem image_og_fallback_not_normalized_cex :
    scrape_products_run base_url
        [("https://qudobeauty.com/products/serum", some cexOgPage)] =
      [⟨some "Serum", "Qudo Beauty", none, none, none, some "/img.png",
        "https://qudobeauty.com/products/serum"⟩]
    ∧ pyStartsWith "/img.png" "/" = true := by
  constructor <;> decide

/-- C2 (amended): an `image_url` produced by a locator candidate is
normalized (scheme-relative and root-relative forms rewritten to
absolute) before storage; when every candidate yields a falsy value, the
stored `image_url` is the `og:image` meta content exactly as read, with
no normalization applied. -/
theorem image_normalization_sources (base : String)
    (cands : List (Option String)) (og c : Option String) :
    (cands.find? truthy = some c →
      extractImage base cands og = some (normalizeImageUrl base (c.getD "")))
    ∧ (cands.find? truthy = none → extractImage base cands og = og) := by
  constructor
  · intro h
    have hloop := extractImageLoop_find_some base cands none c h
    have hc : truthy c = true := List.find?_some h
    obtain ⟨s, rfl⟩ : ∃ s, c = some s := by
      cases c with
      | none => simp [truthy] at hc
      | some s => exact ⟨s, rfl⟩
    have hs : s ≠ "" := (truthy_some_iff s).mp hc
    have hne : normalizeImageUrl base s ≠ "" := normalizeImageUrl_ne_empty base s hs
    unfold extractImage
    rw [hloop]
    simp [truthy, hne]
  · intro h
    have hloop := extractImageLoop_find_none base cands none rfl h
    unfold extractImage
    simp [hloop]

theorem image_normalization_sources_witness :
    extractImage base_url [some "//cdn.example/i.png"] none =
      some "https://cdn.example/i.png"
    ∧ extractImage base_url [none] (some "/raw.png") = some "/raw.png" :=
  ⟨((image_normalization_sources base_url [some "//cdn.example/i.png"] none
      (some "//cdn.example/i.png")).1 (by decide)).trans (by decide),
   (image_normalization_sources base_url [none] (some "/raw.png") none).2
      (by decide)⟩

/-- C3 (counterexample page): every name / category / ingredients / size
locator fails; the first image candidate has the whitespace-only `src`
value `" "`, the second a real URL; the `og:title` meta tag carries a
name. -/
def cexTrimPage : PageData :=
  ⟨[none, none, none, none], [none, none, none, none],
   [none, none, none, none], [none, none, none, none],
   [some " ", some "https://cdn.example/img.png", none, none],
   some "Og Title Name", none⟩

/-- C3 (counterexample): the claim fails on the code in two ways.  First,
for the image field the code breaks on any non-empty attribute value
without trimming: with candidates `[" ", "https://cdn.example/img.png"]`
it stores `" "`, although `" "` is empty after trimming and the claim
demands the second candidate's value (`specAcceptTrimmed` picks the
second candidate).  Second, with every name candidate failing the claim
says the field is absent, but the code falls back to the `og:title` meta
content, so `product_name` is populated. -/
theorem extractor_first_candidate_cex :
    scrape_product_page base_url "https://qudobeauty.com/products/item"
        (some cexTrimPage) =
      some ⟨some "Og Title Name", "Qudo Beauty", none, none, none, some " ",
            "https://qudobeauty.com/products/item"⟩
    ∧ cexTrimPage.imgCands.find? specAcceptTrimmed =
        some (some "https://cdn.example/img.png")
    ∧ pyStrip " " = "" := by
  refine ⟨by decide, by decide, by decide⟩

/-- C3 (amended): for the four text fields, the extractor returns the
stripped text of the first candidate whose lookup succeeds with text that
is non-empty and strips to non-empty; for the image field it returns the
normalized value of the first candidate whose attribute value is present
and non-empty, with no trimming applied.  A lower-priority candidate's
value is never returned once an earlier candidate is accepted (the loop
breaks at the first accepted candidate).  When every candidate fails the
field is left falsy — and for `product_name` the `og:title` meta content
then becomes the stored value. -/
theorem extractor_first_truthy_candidate (cands icands : List (Option String))
    (base url : String) (p : PageData) (c : Option String) :
    (cands.find? acceptText = some c →
      extractFieldLoop none cands = safe_find_element c)
    ∧ (cands.find? acceptText = none →
        truthy (extractFieldLoop none cands) = false)
    ∧ (icands.find? truthy = some c →
        extractImageLoop base none icands =
          some (normalizeImageUrl base (c.getD "")))
    ∧ (icands.find? truthy = none →
        truthy (extractImageLoop base none icands) = false)
    ∧ ((∀ x ∈ p.nameCands, acceptText x = false) →
        Option.map ProductRecord.product_name
          (scrape_product_page base url (some p)) = some p.ogTitle) := by
  refine ⟨extractFieldLoop_find_some cands none c,
          extractFieldLoop_find_none cands none rfl,
          extractImageLoop_find_some base icands none c,
          extractImageLoop_find_none base icands none rfl,
          fun h => ?_⟩
  have hnone : p.nameCands.find? acceptText = none := by
    rw [List.find?_eq_none]
    intro x hx
    simp [h x hx]
  have hf : truthy (extractFieldLoop none p.nameCands) = false :=
    extractFieldLoop_find_none p.nameCands none rfl hnone
  simp [scrape_product_page, hf]

theorem extractor_first_truthy_candidate_witness :
    extractFieldLoop none [some " Hello "] = some "Hello"
    ∧ extractImageLoop base_url none [some " Hello "] = some " Hello "
    ∧ Option.map ProductRecord.product_name
        (scrape_product_page base_url "https://qudobeauty.com/products/item"
          (some cexTrimPage)) = some cexTrimPage.ogTitle := by
  have h := extractor_first_truthy_candidate [some " Hello "] [some " Hello "]
    base_url "https://qudobeauty.com/products/item" cexTrimPage (some " Hello ")
  refine ⟨(h.1 (by decide)).trans (by decide),
          (h.2.2.1 (by decide)).trans (by decide),
          h.2.2.2.2 (by decide)⟩

/-- C5 helper: folding the per-page step only ever appends records whose
`product_name` passed the truthiness test on line 295. -/
lemma mem_foldl_runStep (base : String) :
    ∀ (pages : List (String × Option PageData)) (acc : List ProductRecord)
      (r : ProductRecord), r ∈ pages.foldl (runStep base) acc →
      r ∈ acc ∨ truthy r.product_name = true := by
  intro pages
  induction pages with
  | nil => intro acc r h; exact Or.inl (by simpa using h)
  | cons pg rest ih =>
    intro acc r h
    rw [List.foldl_cons] at h
    rcases ih (runStep base acc pg) r h with hm | ht
    · unfold runStep at hm
      rcases hsp : scrape_product_page base pg.1 pg.2 with _ | rec
      · rw [hsp] at hm
        exact Or.inl hm
      · rw [hsp] at hm
        have hm2 : r ∈ (if truthy rec.product_name then acc ++ [rec] else acc) := hm
        by_cases htr : truthy rec.product_name = true
        · rw [if_pos htr] at hm2
          rcases List.mem_append.mp hm2 with h1 | h2
          · exact Or.inl h1
          · rw [List.mem_singleton] at h2
            subst h2
            exact Or.inr htr
        · rw [if_neg htr] at hm2
          exact Or.inl hm2
    · exact Or.inr ht

/-- C5: every record in the output collection of `scrape_products` has a
truthy (present and non-empty) `product_name`: line 295 appends a record
only when `product_data['product_name']` is truthy, so an empty or absent
name never reaches `self.products`. -/
theorem output_records_have_nonempty_name (base : String)
    (pages : List (String × Option PageData)) (r : ProductRecord)
    (h : r ∈ scrape_products_run base pages) :
    r.product_name ≠ none ∧ r.product_name ≠ some "" := by
  have ht : truthy r.product_name = true := by
    rcases mem_foldl_runStep base pages [] r h with hm | ht
    · simp at hm
    · exact ht
  rcases hname : r.product_name with _ | s
  · rw [hname] at ht
    simp [truthy] at ht
  · rw [hname] at ht
    have hs : s ≠ "" := (truthy_some_iff s).mp ht
    simp [hs]

theorem output_records_have_nonempty_name_witness :
    (some "Glow Serum" : Option String) ≠ none
    ∧ (some "Glow Serum" : Option String) ≠ some "" :=
  output_records_have_nonempty_name base_url
    [("https://qudobeauty.com/products/glow-serum",
      some ⟨[some "Glow Serum"], [none], [none], [none], [none], none, none⟩)]
    ⟨some "Glow Serum", "Qudo Beauty", none, none, none, none,
     "https://qudobeauty.com/products/glow-serum"⟩
    (by decide)

/-- C6: whatever hrefs the selectors produce — including the same href
discovered by two different selectors — the list returned by
`extract_product_links` holds each href at most once (a Python `set`
cannot hold duplicates) and has length at most the cap (the final
`list(product_links)[:max_products]` slice enforces it even in corner
cases of the early-break logic). -/
theorem extract_links_nodup_and_capped (maxP : Nat)
    (sels : List (List (Option String))) :
    (extract_product_links maxP sels).Nodup
    ∧ (extract_product_links maxP sels).length ≤ maxP := by
  constructor
  · exact List.Nodup.sublist (List.take_sublist maxP _)
      (collectAllSelectors_nodup maxP sels [] (by simp))
  · rw [extract_product_links, List.length_take]
    exact Nat.min_le_left _ _

/-- C7: `navigate_to_skincare` tries its selectors in their fixed order.
The model input records, per selector, whether it became clickable within
its bounded wait; the result is the returned boolean paired with the
number of selectors attempted.  It returns `True` exactly when some
selector is clickable, having attempted exactly the selectors up to and
including the first clickable one (so none after it is tried); when every
selector times out, it attempts all of them and returns `False` — a
boolean, as the per-selector `TimeoutException` is swallowed by
`continue` and the loop simply ends. -/
theorem navigator_first_clickable (cands : List Bool) :
    navigate_to_skincare cands =
      (cands.any (fun b => b),
       (cands.takeWhile (fun b => !b)).length +
         (if cands.any (fun b => b) then 1 else 0)) := by
  induction cands with
  | nil => rfl
  | cons c rest ih =>
    cases c
    · simp only [navigate_to_skincare, Bool.false_eq_true, if_false, ih,
        List.any_cons, List.takeWhile_cons, Bool.not_false, Bool.false_or]
      simp
      omega
    · simp [navigate_to_skincare, List.takeWhile_cons]

/-- C8: any failure while loading or extracting one detail page is caught
at the boundary of `scrape_product_page` (line 272), which returns `None`
for that URL; in the main loop a `None` outcome contributes nothing and
the fold continues, so a run containing one failing page produces exactly
the records of the same run without that page — one failing page removes
at most its own record. -/
theorem page_failure_isolated (base url : String)
    (pre post : List (String × Option PageData)) :
    scrape_product_page base url none = none
    ∧ scrape_products_run base (pre ++ (url, none) :: post) =
        scrape_products_run base (pre ++ post) := by
  constructor
  · rfl
  · unfold scrape_products_run
    rw [List.foldl_append, List.foldl_append, List.foldl_cons]
    rfl

/-- C9 helper: the main loop of `scrape_products` never releases the
driver — no `driver.quit()` call occurs anywhere in the `try` body. -/
lemma driverQuit_not_mem_loop (base : String) :
    ∀ pages : List (String × Option PageData),
      ScrapeEv.driverQuit ∉ scrapeLoopEvents base pages := by
  intro pages
  induction pages with
  | nil => simp [scrapeLoopEvents]
  | cons p rest ih =>
    obtain ⟨url, pg⟩ := p
    rcases hsp : scrape_product_page base url pg with _ | rec
    · simp [scrapeLoopEvents, hsp, ih]
    · by_cases ht : truthy rec.product_name = true
      · simp [scrapeLoopEvents, hsp, ht, ih]
      · simp [scrapeLoopEvents, hsp, ht, ih]

/-- C9: on every exit path of `scrape_products` — the `try` body running
to completion (`raised = false`) or any exception cutting it short after
a prefix of its events (`raised = true`, the `except` logs the error) —
the `finally` block releases the driver exactly once, as the last event
before control proceeds to export. -/
theorem driver_quit_exactly_once (base : String)
    (pages : List (String × Option PageData)) (body : List ScrapeEv)
    (raised : Bool) (hpfx : body <+: scrapeBodyEvents base pages) :
    (scrape_products_trace body raised).count ScrapeEv.driverQuit = 1
    ∧ (scrape_products_trace body raised).getLast? = some ScrapeEv.driverQuit := by
  have hq : ScrapeEv.driverQuit ∉ body := by
    intro hmem
    have hfull := hpfx.subset hmem
    simp [scrapeBodyEvents] at hfull
    exact driverQuit_not_mem_loop base pages hfull
  constructor
  · cases raised <;>
      simp [scrape_products_trace, List.count_append,
        List.count_eq_zero.mpr hq, List.count_singleton]
  · unfold scrape_products_trace
    rw [List.getLast?_concat]

theorem driver_quit_exactly_once_witness :
    (scrape_products_trace [] false).count ScrapeEv.driverQuit = 1
    ∧ (scrape_products_trace [] false).getLast? = some ScrapeEv.driverQuit :=
  driver_quit_exactly_once base_url [] [] false (by exact List.nil_prefix)
